import Mathlib

/-!
Verification of the rchess board model.

Shallow embedding of the two board implementations of the repository:
* `Game` embeds `src/game/board.rs` (piece kinds without glyphs, `Board::new`,
  `Board::get_piece`) and the renderer-facing query interface.
* `App` embeds `chess_app/src/main.rs` (glyph-carrying pieces, `Board::new`,
  `Board::move_piece`, `Board::parse_coord`).

Rust strings are UTF-8 byte sequences; `str::len` and `str::as_bytes` work on
bytes, so strings are modelled as `List Char` together with their UTF-8
encoding.  Machine-integer (`u8`) subtraction is modelled with explicit
wrap-around `% 256` (release-mode semantics).  The in-place mutation of
`move_piece` is modelled by returning the result together with the (possibly
updated) board, mirroring `&mut self` plus `Result<(), String>`.
-/

set_option autoImplicit false

namespace RChess

instance {ε α : Type} [DecidableEq ε] [DecidableEq α] : DecidableEq (Except ε α) :=
  fun x y =>
    match x, y with
    | .error a, .error b =>
      if h : a = b then .isTrue (by rw [h]) else .isFalse (by simp [h])
    | .error _, .ok _ => .isFalse (by simp)
    | .ok _, .error _ => .isFalse (by simp)
    | .ok a, .ok b =>
      if h : a = b then .isTrue (by rw [h]) else .isFalse (by simp [h])

/-- Pointwise update of an 8x8 grid stored as a function; models the Rust
array assignment `squares[r][f] = v`. -/
def setSquare {α : Type} (s : Nat → Nat → Option α) (r f : Nat) (v : Option α) :
    Nat → Nat → Option α :=
  fun r' f' => if r' = r ∧ f' = f then v else s r' f'

namespace Game

/-- `Piece` from `src/game/board.rs`: a bare piece kind. -/
inductive Piece where
  | Pawn
  | Rook
  | Knight
  | Bishop
  | Queen
  | King
deriving DecidableEq, Repr

/-- `Board` from `src/game/board.rs`: an 8x8 array of optional pieces,
indexed `squares[rank][file]`. -/
structure Board where
  squares : Nat → Nat → Option Piece

/-- `Board::new` from `src/game/board.rs`: the standard starting position. -/
def Board.new : Board :=
  let s : Nat → Nat → Option Piece := fun _ _ => none
  -- Pawns: for i in 0..8 { squares[1][i] = Pawn; squares[6][i] = Pawn }
  let s := (List.range 8).foldl
    (fun s i => setSquare (setSquare s 1 i (some .Pawn)) 6 i (some .Pawn)) s
  -- Rooks
  let s := setSquare s 0 0 (some .Rook)
  let s := setSquare s 0 7 (some .Rook)
  let s := setSquare s 7 0 (some .Rook)
  let s := setSquare s 7 7 (some .Rook)
  -- Knights
  let s := setSquare s 0 1 (some .Knight)
  let s := setSquare s 0 6 (some .Knight)
  let s := setSquare s 7 1 (some .Knight)
  let s := setSquare s 7 6 (some .Knight)
  -- Bishops
  let s := setSquare s 0 2 (some .Bishop)
  let s := setSquare s 0 5 (some .Bishop)
  let s := setSquare s 7 2 (some .Bishop)
  let s := setSquare s 7 5 (some .Bishop)
  -- Queens
  let s := setSquare s 0 3 (some .Queen)
  let s := setSquare s 7 3 (some .Queen)
  -- Kings
  let s := setSquare s 0 4 (some .King)
  let s := setSquare s 7 4 (some .King)
  { squares := s }

/-- `Board::get_piece` from `src/game/board.rs`: bounds-safe read,
`None` whenever either index is out of `[0,7]`. -/
def Board.get_piece (b : Board) (rank file : Nat) : Option Piece :=
  if rank < 8 ∧ file < 8 then b.squares rank file else none

/-- Number of occupied squares, counted through the `get_piece` query. -/
def countPieces (b : Board) : Nat :=
  ((List.range 8).map (fun r =>
    ((List.range 8).filter (fun f => (b.get_piece r f).isSome)).length)).sum

end Game

namespace App

/-- `Piece` from `chess_app/src/main.rs`: each piece carries its display
glyph, which is meant to encode both kind and color. -/
inductive Piece where
  | Pawn (c : Char)
  | Rook (c : Char)
  | Knight (c : Char)
  | Bishop (c : Char)
  | Queen (c : Char)
  | King (c : Char)
deriving DecidableEq, Repr

/-- The glyph stored in a piece (the `match` inside `impl Display for Piece`). -/
def Piece.glyph : Piece → Char
  | .Pawn c => c
  | .Rook c => c
  | .Knight c => c
  | .Bishop c => c
  | .Queen c => c
  | .King c => c

/-- The kind of a piece, forgetting its glyph. -/
def Piece.kind : Piece → Game.Piece
  | .Pawn _ => .Pawn
  | .Rook _ => .Rook
  | .Knight _ => .Knight
  | .Bishop _ => .Bishop
  | .Queen _ => .Queen
  | .King _ => .King

/-- `Board` from `chess_app/src/main.rs`. -/
structure Board where
  squares : Nat → Nat → Option Piece

/-- `Board::new` from `chess_app/src/main.rs`, glyphs exactly as in the
source (including the mismatched glyph assignments). -/
def Board.new : Board :=
  let s : Nat → Nat → Option Piece := fun _ _ => none
  -- Place pawns
  let s := (List.range 8).foldl
    (fun s i => setSquare (setSquare s 1 i (some (.Pawn '♙'))) 6 i (some (.Pawn '♟'))) s
  -- Rooks
  let s := setSquare s 0 0 (some (.Rook '♖'))
  let s := setSquare s 0 7 (some (.Rook '♗'))
  let s := setSquare s 7 0 (some (.Rook '♜'))
  let s := setSquare s 7 7 (some (.Rook '♝'))
  -- Knights
  let s := setSquare s 0 1 (some (.Knight '♘'))
  let s := setSquare s 0 6 (some (.Knight '♗'))
  let s := setSquare s 7 1 (some (.Knight '♞'))
  let s := setSquare s 7 6 (some (.Knight '♜'))
  -- Bishops
  let s := setSquare s 0 2 (some (.Bishop '♗'))
  let s := setSquare s 0 5 (some (.Bishop '♘'))
  let s := setSquare s 7 2 (some (.Bishop '♝'))
  let s := setSquare s 7 5 (some (.Bishop '♜'))
  -- Queens
  let s := setSquare s 0 3 (some (.Queen '♕'))
  let s := setSquare s 7 3 (some (.Queen '♛'))
  -- Kings
  let s := setSquare s 0 4 (some (.King '♔'))
  let s := setSquare s 7 4 (some (.King '♚'))
  { squares := s }

/-- UTF-8 encoding of one character as byte values; Rust `str` stores UTF-8,
so `len()` and `as_bytes()` see these bytes. -/
def utf8Bytes (c : Char) : List Nat :=
  let n := c.toNat
  if n < 128 then [n]
  else if n < 2048 then [192 + n / 64, 128 + n % 64]
  else if n < 65536 then [224 + n / 4096, 128 + n / 64 % 64, 128 + n % 64]
  else [240 + n / 262144, 128 + n / 4096 % 64, 128 + n / 64 % 64, 128 + n % 64]

/-- The UTF-8 byte sequence of a string (`str::as_bytes`, whose length is
`str::len`). -/
def strBytes (s : List Char) : List Nat :=
  (s.map utf8Bytes).flatten

/-- `Board::parse_coord` from `chess_app/src/main.rs`.  The length test is on
the UTF-8 byte length; the two `u8` subtractions wrap modulo 256. -/
def parse_coord (coord : List Char) : Except String (Nat × Nat) :=
  match strBytes coord with
  | [b0, b1] =>
    -- (bytes[0] - b'a') as usize, u8 subtraction wrapping modulo 256
    let file := (b0 + 256 - 97) % 256
    -- (b'8' - bytes[1]) as usize, u8 subtraction wrapping modulo 256; 8->0, 1->7
    let rank := (56 + 256 - b1) % 256
    if 7 < file ∨ 7 < rank then .error "Coordinate out of bounds"
    else .ok (file, rank)
  | _ => .error "Invalid coordinate length"

/-- `Board::move_piece` from `chess_app/src/main.rs`; returns the
`Result<(), String>` together with the board after the call. -/
def Board.move_piece (b : Board) (fromC toC : List Char) :
    Except String Unit × Board :=
  match parse_coord fromC with
  | .error e => (.error e, b)
  | .ok (fx, fy) =>
    match parse_coord toC with
    | .error e => (.error e, b)
    | .ok (tx, ty) =>
      if fx = tx ∧ fy = ty then (.error "Source and destination are the same", b)
      else
        match b.squares fy fx with
        | none => (.error "No piece at source", b)
        | some piece =>
          -- Basic validation: only allow pawn forward move by one
          match piece with
          | .Pawn _ =>
            if fx = tx ∧ (fy + 1) % 8 = ty then
              (.ok (), ⟨setSquare (setSquare b.squares ty tx (some piece)) fy fx none⟩)
            else (.error "Invalid pawn move", b)
          | _ => (.error "Only pawn moves implemented", b)

/-- Number of occupied squares of an app board. -/
def countPieces (b : Board) : Nat :=
  ((List.range 8).map (fun r =>
    ((List.range 8).filter (fun f => (b.squares r f).isSome)).length)).sum

end App

/-! ### Spec-side coordinate notions

The spec describes the coordinate decoding as `file = letter - 'a'` and
`rank = '8' - digit` over the integers, and calls a coordinate valid when the
file letter is in `a`–`h` and the rank digit in `1`–`8`. -/

/-- The spec's decoded file index of a file letter, over the integers. -/
def decodedFile (c : Char) : Int := (c.toNat : Int) - 97

/-- The spec's decoded rank index of a rank digit, over the integers. -/
def decodedRank (d : Char) : Int := 56 - (d.toNat : Int)

/-- The character is a file letter `a`–`h`. -/
def isFileChar (c : Char) : Prop := 97 ≤ c.toNat ∧ c.toNat ≤ 104

/-- The character is a rank digit `1`–`8`. -/
def isRankChar (d : Char) : Prop := 49 ≤ d.toNat ∧ d.toNat ≤ 56

instance (c : Char) : Decidable (isFileChar c) := by
  unfold isFileChar
  infer_instance

instance (d : Char) : Decidable (isRankChar d) := by
  unfold isRankChar
  infer_instance

/-! ### Helper lemmas about `setSquare` and `parse_coord` -/

/-- Reading the square just written. -/
theorem setSquare_same {α : Type} (s : Nat → Nat → Option α) (r f : Nat)
    (v : Option α) : setSquare s r f v r f = v := by
  simp [setSquare]

/-- Reading any other square is unaffected by a write. -/
theorem setSquare_other {α : Type} (s : Nat → Nat → Option α) (r f r' f' : Nat)
    (v : Option α) (h : ¬(r' = r ∧ f' = f)) : setSquare s r f v r' f' = s r' f' := by
  simp [setSquare, if_neg h]

/-- The UTF-8 bytes of a pair of ASCII characters are their code points. -/
theorem strBytes_ascii_pair (c d : Char) (hc : c.toNat < 128) (hd : d.toNat < 128) :
    App.strBytes [c, d] = [c.toNat, d.toNat] := by
  simp [App.strBytes, App.utf8Bytes, hc, hd]

/-- `parse_coord` on two ASCII characters reduces to the wrapped-subtraction
bounds test of the source. -/
theorem parse_coord_ascii_pair (c d : Char) (hc : c.toNat < 128) (hd : d.toNat < 128) :
    App.parse_coord [c, d] =
      (if 7 < (c.toNat + 256 - 97) % 256 ∨ 7 < (56 + 256 - d.toNat) % 256 then
        .error "Coordinate out of bounds"
      else .ok ((c.toNat + 256 - 97) % 256, (56 + 256 - d.toNat) % 256)) := by
  unfold App.parse_coord
  rw [strBytes_ascii_pair c d hc hd]

/-- `parse_coord` on a valid coordinate returns the spec's decoded pair. -/
theorem parse_coord_valid (c d : Char) (hc : isFileChar c) (hd : isRankChar d) :
    App.parse_coord [c, d] = .ok (c.toNat - 97, 56 - d.toNat) := by
  obtain ⟨hc1, hc2⟩ := hc
  obtain ⟨hd1, hd2⟩ := hd
  rw [parse_coord_ascii_pair c d (by omega) (by omega)]
  have h1 : (c.toNat + 256 - 97) % 256 = c.toNat - 97 := by omega
  have h2 : (56 + 256 - d.toNat) % 256 = 56 - d.toNat := by omega
  rw [h1, h2, if_neg]
  omega

/-- Characters with equal code points are equal. -/
theorem char_toNat_injective {a b : Char} (h : a.toNat = b.toNat) : a = b := by
  have h2 := congrArg Char.ofNat h
  rwa [Char.ofNat_toNat, Char.ofNat_toNat] at h2

/-- The file letters and rank digits in board order. -/
def fileChars : List Char := ['a', 'b', 'c', 'd', 'e', 'f', 'g', 'h']

/-- The rank digits in board order (row 0 is rank 8). -/
def rankChars : List Char := ['8', '7', '6', '5', '4', '3', '2', '1']

theorem parse_coord_surj_aux : ∀ x, x < 8 → ∀ y, y < 8 →
    isFileChar (fileChars.getD x 'a') ∧ isRankChar (rankChars.getD y '8') ∧
      App.parse_coord [fileChars.getD x 'a', rankChars.getD y '8'] = .ok (x, y) := by
  decide

/-! ### Claim theorems -/

/-- C1 counterexample: on a fresh board `move_piece("e2","e3")` does not
succeed; it fails with `IllegalPawnMove`, because the pawn rule
`(fy + 1) % 8 = ty` sends source rank index 6 to 7 (square `e1`), not to 5
(square `e3`). -/
theorem c1_counterexample :
    (App.Board.new.move_piece ['e', '2'] ['e', '3']).1 = .error "Invalid pawn move" ∧
      (App.Board.new.move_piece ['e', '2'] ['e', '3']).1 ≠ .ok () := by
  decide

/-- C1 (amended): on a fresh board `move_piece("e2","e4")` and
`move_piece("e2","e3")` both fail with `IllegalPawnMove`;
`move_piece("e2","e1")` succeeds, leaving the pawn on the square denoted `e1`
(rank index 7, file 4) and the square denoted `e2` (rank index 6, file 4)
empty. -/
theorem c1_fresh_board_moves :
    (App.Board.new.move_piece ['e', '2'] ['e', '4']).1 = .error "Invalid pawn move" ∧
      (App.Board.new.move_piece ['e', '2'] ['e', '3']).1 = .error "Invalid pawn move" ∧
      (App.Board.new.move_piece ['e', '2'] ['e', '1']).1 = .ok () ∧
      (App.Board.new.move_piece ['e', '2'] ['e', '1']).2.squares 7 4 =
        some (.Pawn '♟') ∧
      (App.Board.new.move_piece ['e', '2'] ['e', '1']).2.squares 6 4 = none := by
  decide

/-- C3 counterexample: `"é2"` is a two-character string whose decoded file
index `'é' - 'a' = 136` is outside `[0,7]`, yet `parse_coord` does not return
`OutOfBounds`: the UTF-8 encoding of `'é'` is two bytes, so the byte-length
test fires first and the result is `InvalidLength`. -/
theorem c3_counterexample :
    (['é', '2'] : List Char).length = 2 ∧
      ¬(0 ≤ decodedFile 'é' ∧ decodedFile 'é' ≤ 7) ∧
      App.parse_coord ['é', '2'] = .error "Invalid coordinate length" ∧
      App.parse_coord ['é', '2'] ≠ .error "Coordinate out of bounds" := by
  decide

/-- C3 (amended): for every two-character input made of ASCII characters, if
the decoded file or rank index falls outside `[0,7]`, then `parse_coord`
terminates with the `OutOfBounds` error (under the wrapping byte arithmetic
of the source's release-mode `u8` subtractions). -/
theorem c3_parse_out_of_bounds (c d : Char) (hc : c.toNat < 128) (hd : d.toNat < 128)
    (h : ¬(0 ≤ decodedFile c ∧ decodedFile c ≤ 7) ∨
      ¬(0 ≤ decodedRank d ∧ decodedRank d ≤ 7)) :
    App.parse_coord [c, d] = .error "Coordinate out of bounds" := by
  rw [parse_coord_ascii_pair c d hc hd, if_pos]
  unfold decodedFile decodedRank at h
  omega

/-- C3 witness: `parse_coord("i9")` fails with `OutOfBounds`, via
`c3_parse_out_of_bounds`. -/
theorem c3_parse_out_of_bounds_witness :
    App.parse_coord ['i', '9'] = .error "Coordinate out of bounds" :=
  c3_parse_out_of_bounds 'i' '9' (by decide) (by decide) (by decide)

/-- C4 counterexample: `"é"` is a one-character string, so by the claim
`parse_coord` had to fail with `InvalidLength`; but its UTF-8 encoding is two
bytes, so the length test passes and the decoded wrapped indices yield
`OutOfBounds` instead. -/
theorem c4_counterexample :
    (['é'] : List Char).length ≠ 2 ∧
      App.parse_coord ['é'] = .error "Coordinate out of bounds" ∧
      App.parse_coord ['é'] ≠ .error "Invalid coordinate length" := by
  decide

/-- C4 (amended): for every input string, `parse_coord` fails with
`InvalidLength` if and only if the input's UTF-8 byte length is not exactly
two; a two-byte input never yields `InvalidLength`, and if its decoded
(wrapped) indices are in `[0,7]` then `parse_coord` succeeds with that
pair. -/
theorem c4_invalid_length_iff (s : List Char) :
    (App.parse_coord s = .error "Invalid coordinate length" ↔
        (App.strBytes s).length ≠ 2) ∧
      (∀ b0 b1, App.strBytes s = [b0, b1] →
        (b0 + 256 - 97) % 256 ≤ 7 → (56 + 256 - b1) % 256 ≤ 7 →
        App.parse_coord s = .ok ((b0 + 256 - 97) % 256, (56 + 256 - b1) % 256)) := by
  constructor
  · unfold App.parse_coord
    rcases hb : App.strBytes s with _ | ⟨b0, _ | ⟨b1, _ | ⟨b2, t⟩⟩⟩ <;> simp
    split
    · simp
    · simp
  · intro b0 b1 hb h0 h1
    unfold App.parse_coord
    rw [hb]
    simp only
    rw [if_neg]
    omega

/-- C4 witness: `parse_coord("e2")` is two bytes long, is not an
`InvalidLength` failure, and succeeds, via `c4_invalid_length_iff`. -/
theorem c4_invalid_length_iff_witness :
    App.parse_coord ['e', '2'] ≠ .error "Invalid coordinate length" ∧
      App.parse_coord ['e', '2'] = .ok (4, 6) := by
  constructor
  · intro h
    have h2 := ((c4_invalid_length_iff ['e', '2']).1).mp h
    exact h2 (by decide)
  · exact (c4_invalid_length_iff ['e', '2']).2 101 50 (by decide) (by decide) (by decide)

/-- C2: for every board and every pair of distinct, validly parsed
coordinates `(fx, fy)` and `(tx, ty)` whose source square holds a Pawn,
`move_piece` succeeds if and only if `fx = tx` and `ty = (fy + 1) % 8`, and
every other pawn move fails with `IllegalPawnMove`. -/
theorem c2_pawn_rule (b : App.Board) (fromC toC : List Char)
    (fx fy tx ty : Nat) (g : Char)
    (hf : App.parse_coord fromC = .ok (fx, fy))
    (ht : App.parse_coord toC = .ok (tx, ty))
    (hne : ¬(fx = tx ∧ fy = ty))
    (hp : b.squares fy fx = some (.Pawn g)) :
    ((b.move_piece fromC toC).1 = .ok () ↔ fx = tx ∧ (fy + 1) % 8 = ty) ∧
      (¬(fx = tx ∧ (fy + 1) % 8 = ty) →
        (b.move_piece fromC toC).1 = .error "Invalid pawn move") := by
  simp only [App.Board.move_piece, hf, ht, if_neg hne, hp]
  by_cases hr : fx = tx ∧ (fy + 1) % 8 = ty
  · rw [if_pos hr]
    simp [hr]
  · rw [if_neg hr]
    simp [hr]

/-- C2 witness: on the fresh board the pawn move `e2`→`e1` matches the rule
and succeeds, and `e2`→`e3` violates it and fails with `IllegalPawnMove`,
via `c2_pawn_rule`. -/
theorem c2_pawn_rule_witness :
    (App.Board.new.move_piece ['e', '2'] ['e', '1']).1 = .ok () ∧
      (App.Board.new.move_piece ['e', '2'] ['e', '3']).1 =
        .error "Invalid pawn move" :=
  ⟨(c2_pawn_rule App.Board.new ['e', '2'] ['e', '1'] 4 6 4 7 '♟' (by decide)
      (by decide) (by decide) (by decide)).1.mpr (by decide),
    (c2_pawn_rule App.Board.new ['e', '2'] ['e', '3'] 4 6 4 5 '♟' (by decide)
      (by decide) (by decide) (by decide)).2 (by decide)⟩

/-- C8: on every successful call of `move_piece` the destination square takes
the piece previously at the source, the source square becomes empty and every
other square is unchanged; on every failing call the board is unchanged. -/
theorem c8_move_piece_frame (b : App.Board) (fromC toC : List Char) :
    ((b.move_piece fromC toC).1 = .ok () →
        ∃ fx fy tx ty,
          App.parse_coord fromC = .ok (fx, fy) ∧
            App.parse_coord toC = .ok (tx, ty) ∧
            (b.move_piece fromC toC).2.squares ty tx = b.squares fy fx ∧
            (b.move_piece fromC toC).2.squares fy fx = none ∧
            ∀ r f, ¬(r = ty ∧ f = tx) → ¬(r = fy ∧ f = fx) →
              (b.move_piece fromC toC).2.squares r f = b.squares r f) ∧
      ∀ e, (b.move_piece fromC toC).1 = .error e →
        (b.move_piece fromC toC).2 = b := by
  cases hf : App.parse_coord fromC with
  | error e1 =>
    constructor
    · intro h
      simp [App.Board.move_piece, hf] at h
    · intro e _
      simp [App.Board.move_piece, hf]
  | ok p =>
    obtain ⟨fx, fy⟩ := p
    cases ht : App.parse_coord toC with
    | error e2 =>
      constructor
      · intro h
        simp [App.Board.move_piece, hf, ht] at h
      · intro e _
        simp [App.Board.move_piece, hf, ht]
    | ok q =>
      obtain ⟨tx, ty⟩ := q
      by_cases hne : fx = tx ∧ fy = ty
      · constructor
        · intro h
          simp [App.Board.move_piece, hf, ht, if_pos hne] at h
        · intro e _
          simp [App.Board.move_piece, hf, ht, if_pos hne]
      · cases hsq : b.squares fy fx with
        | none =>
          constructor
          · intro h
            simp [App.Board.move_piece, hf, ht, if_neg hne, hsq] at h
          · intro e _
            simp [App.Board.move_piece, hf, ht, if_neg hne, hsq]
        | some piece =>
          cases piece with
          | Pawn g =>
            by_cases hr : fx = tx ∧ (fy + 1) % 8 = ty
            · constructor
              · intro _
                refine ⟨fx, fy, tx, ty, rfl, rfl, ?_, ?_, ?_⟩
                · simp only [App.Board.move_piece, hf, ht, if_neg hne, hsq,
                    if_pos hr]
                  rw [setSquare_other, setSquare_same]
                  intro hc
                  exact hne ⟨hc.2.symm, hc.1.symm⟩
                · simp only [App.Board.move_piece, hf, ht, if_neg hne, hsq,
                    if_pos hr]
                  rw [setSquare_same]
                · intro r f hrt hrf
                  simp only [App.Board.move_piece, hf, ht, if_neg hne, hsq,
                    if_pos hr]
                  rw [setSquare_other _ _ _ _ _ _ hrf, setSquare_other _ _ _ _ _ _ hrt]
              · intro e he
                simp [App.Board.move_piece, hf, ht, if_neg hne, hsq,
                  if_pos hr] at he
            · constructor
              · intro h
                simp [App.Board.move_piece, hf, ht, if_neg hne, hsq,
                  if_neg hr] at h
              · intro e _
                simp [App.Board.move_piece, hf, ht, if_neg hne, hsq, if_neg hr]
          | Rook g =>
            constructor
            · intro h
              simp [App.Board.move_piece, hf, ht, if_neg hne, hsq] at h
            · intro e _
              simp [App.Board.move_piece, hf, ht, if_neg hne, hsq]
          | Knight g =>
            constructor
            · intro h
              simp [App.Board.move_piece, hf, ht, if_neg hne, hsq] at h
            · intro e _
              simp [App.Board.move_piece, hf, ht, if_neg hne, hsq]
          | Bishop g =>
            constructor
            · intro h
              simp [App.Board.move_piece, hf, ht, if_neg hne, hsq] at h
            · intro e _
              simp [App.Board.move_piece, hf, ht, if_neg hne, hsq]
          | Queen g =>
            constructor
            · intro h
              simp [App.Board.move_piece, hf, ht, if_neg hne, hsq] at h
            · intro e _
              simp [App.Board.move_piece, hf, ht, if_neg hne, hsq]
          | King g =>
            constructor
            · intro h
              simp [App.Board.move_piece, hf, ht, if_neg hne, hsq] at h
            · intro e _
              simp [App.Board.move_piece, hf, ht, if_neg hne, hsq]

/-- C8 witness: the frame conclusion of `c8_move_piece_frame` for the
successful move `e2`→`e1` on the fresh board, and the unchanged board for a
failing call. -/
theorem c8_move_piece_frame_witness :
    (∃ fx fy tx ty,
        App.parse_coord ['e', '2'] = .ok (fx, fy) ∧
          App.parse_coord ['e', '1'] = .ok (tx, ty) ∧
          (App.Board.new.move_piece ['e', '2'] ['e', '1']).2.squares ty tx =
            App.Board.new.squares fy fx ∧
          (App.Board.new.move_piece ['e', '2'] ['e', '1']).2.squares fy fx = none ∧
          ∀ r f, ¬(r = ty ∧ f = tx) → ¬(r = fy ∧ f = fx) →
            (App.Board.new.move_piece ['e', '2'] ['e', '1']).2.squares r f =
              App.Board.new.squares r f) ∧
      (App.Board.new.move_piece ['e', '2'] ['x', 'x']).2 = App.Board.new :=
  ⟨(c8_move_piece_frame App.Board.new ['e', '2'] ['e', '1']).1 (by decide),
    (c8_move_piece_frame App.Board.new ['e', '2'] ['x', 'x']).2
      "Coordinate out of bounds" (by decide)⟩

/-- C5: immediately after `Board::new()` exactly 32 squares are non-empty, in
the standard starting layout: ranks 1 and 6 hold pawns on every file, ranks
2 through 5 are empty on every file, and the squares (0,4) and (7,4) hold
kings. -/
theorem c5_initial_layout :
    Game.countPieces Game.Board.new = 32 ∧
      (∀ f, f < 8 →
        Game.Board.new.get_piece 1 f = some .Pawn ∧
          Game.Board.new.get_piece 6 f = some .Pawn) ∧
      (∀ r, 2 ≤ r → r ≤ 5 → ∀ f, Game.Board.new.get_piece r f = none) ∧
      Game.Board.new.get_piece 0 4 = some .King ∧
      Game.Board.new.get_piece 7 4 = some .King := by
  refine ⟨by decide, by decide, ?_, by decide, by decide⟩
  intro r h2 h5 f
  by_cases hf : f < 8
  · have H : ∀ r, r < 8 → ∀ f, f < 8 → 2 ≤ r → r ≤ 5 →
        Game.Board.new.get_piece r f = none := by decide
    exact H r (by omega) f hf h2 h5
  · unfold Game.Board.get_piece
    rw [if_neg]
    intro h
    exact hf h.2

/-- C5 witness: the layout facts at concrete squares, obtained from
`c5_initial_layout`. -/
theorem c5_initial_layout_witness :
    Game.Board.new.get_piece 1 3 = some .Pawn ∧
      Game.Board.new.get_piece 4 9 = none ∧
      Game.countPieces Game.Board.new = 32 :=
  ⟨(c5_initial_layout.2.1 3 (by decide)).1,
    c5_initial_layout.2.2.1 4 (by decide) (by decide) 9,
    c5_initial_layout.1⟩

/-- C6: on valid algebraic coordinates (file letter `a`–`h`, rank digit
`1`–`8`) `parse_coord` computes `(letter - 'a', '8' - digit)`, the map is
injective on valid coordinates and onto `[0,7] × [0,7]`; in particular
`parse_coord("e2") = (4, 6)` and `parse_coord("a8") = (0, 0)`. -/
theorem c6_parse_coord_bijective :
    (∀ c d : Char, isFileChar c → isRankChar d →
        App.parse_coord [c, d] = .ok (c.toNat - 97, 56 - d.toNat)) ∧
      (∀ c d c' d' : Char, isFileChar c → isRankChar d → isFileChar c' →
        isRankChar d' → App.parse_coord [c, d] = App.parse_coord [c', d'] →
        c = c' ∧ d = d') ∧
      (∀ x y : Nat, x < 8 → y < 8 → ∃ c d : Char, isFileChar c ∧ isRankChar d ∧
        App.parse_coord [c, d] = .ok (x, y)) ∧
      App.parse_coord ['e', '2'] = .ok (4, 6) ∧
      App.parse_coord ['a', '8'] = .ok (0, 0) := by
  refine ⟨parse_coord_valid, ?_, ?_, by decide, by decide⟩
  · intro c d c' d' hc hd hc' hd' heq
    rw [parse_coord_valid c d hc hd, parse_coord_valid c' d' hc' hd'] at heq
    simp only [Except.ok.injEq, Prod.mk.injEq] at heq
    obtain ⟨h1, h2⟩ := heq
    obtain ⟨hc1, hc2⟩ := hc
    obtain ⟨hd1, hd2⟩ := hd
    obtain ⟨hc1', hc2'⟩ := hc'
    obtain ⟨hd1', hd2'⟩ := hd'
    exact ⟨char_toNat_injective (by omega), char_toNat_injective (by omega)⟩
  · intro x y hx hy
    exact ⟨fileChars.getD x 'a', rankChars.getD y '8',
      (parse_coord_surj_aux x hx y hy).1, (parse_coord_surj_aux x hx y hy).2.1,
      (parse_coord_surj_aux x hx y hy).2.2⟩

/-- C6 witness: `parse_coord("e2")` computed through the valid-coordinate
formula, and a coordinate pair mapping to `(3, 5)`, via
`c6_parse_coord_bijective`. -/
theorem c6_parse_coord_bijective_witness :
    App.parse_coord ['e', '2'] = .ok ('e'.toNat - 97, 56 - '2'.toNat) ∧
      (∃ c d : Char, isFileChar c ∧ isRankChar d ∧
        App.parse_coord [c, d] = .ok (3, 5)) :=
  ⟨c6_parse_coord_bijective.1 'e' '2' (by decide) (by decide),
    c6_parse_coord_bijective.2.2.1 3 5 (by decide) (by decide)⟩

/-- C7: `get_piece` is total, and whenever the rank or the file index is
outside `[0,7]` it returns no piece, on every board. -/
theorem c7_get_piece_out_of_bounds (b : Game.Board) (rank file : Nat)
    (h : 8 ≤ rank ∨ 8 ≤ file) :
    b.get_piece rank file = none := by
  unfold Game.Board.get_piece
  rw [if_neg]
  intro hc
  omega

/-- C7 witness: a far-out-of-range read on the fresh board returns no piece,
via `c7_get_piece_out_of_bounds`. -/
theorem c7_get_piece_out_of_bounds_witness :
    Game.Board.new.get_piece 1000000 3 = none :=
  c7_get_piece_out_of_bounds Game.Board.new 1000000 3 (by decide)

/-- C9 (bug witness): after `Board::new()` of the app crate, the piece at
rank 0, file 7 is a Rook whose glyph is '♗' while the piece at rank 0,
file 2 is a Bishop with the same glyph '♗' (and the Knight at rank 0,
file 6 carries it as well), so pieces of different kinds share a glyph and
the glyph does not encode the piece kind. -/
theorem c9_glyph_clash :
    App.Board.new.squares 0 7 = some (.Rook '♗') ∧
      App.Board.new.squares 0 2 = some (.Bishop '♗') ∧
      App.Board.new.squares 0 6 = some (.Knight '♗') ∧
      (App.Piece.Rook '♗').kind ≠ (App.Piece.Bishop '♗').kind ∧
      (App.Piece.Rook '♗').glyph = (App.Piece.Bishop '♗').glyph := by
  decide

/-- C10: `move_piece` ignores the destination square's occupancy: on a fresh
board the move `a2`→`a1` satisfies the pawn rule, so it succeeds although the
destination (rank index 7, file 0) holds a Rook; the Rook is overwritten by
the pawn and the total piece count drops from 32 to 31. -/
theorem c10_capture_overwrites :
    App.Board.new.squares 7 0 = some (.Rook '♜') ∧
      (App.Board.new.move_piece ['a', '2'] ['a', '1']).1 = .ok () ∧
      (App.Board.new.move_piece ['a', '2'] ['a', '1']).2.squares 7 0 =
        some (.Pawn '♟') ∧
      (App.Board.new.move_piece ['a', '2'] ['a', '1']).2.squares 6 0 = none ∧
      App.countPieces App.Board.new = 32 ∧
      App.countPieces (App.Board.new.move_piece ['a', '2'] ['a', '1']).2 = 31 := by
  decide

end RChess
